import Mathlib

/-!
Shallow embedding of `src/app.py` (YouTube Transcript Extractor).

The program is a thin coordination layer: a URL validator
(`extract_video_id`), a progress relay (`ProgressHook.__call__`, embedded
as `progressHook_call`), a download/transcribe orchestrator
(`download_and_transcribe_with_progress`) and a session gateway
(`handle_extraction` spawning `extraction_task`).

External collaborators (the filesystem, `shutil.disk_usage`, `yt_dlp`,
`faster_whisper`) are modelled by an `Env` record carrying the values those
calls return in one concrete run; the embedded orchestrator consumes the
record exactly where the source calls the external tool.  Python floats are
modelled as exact rationals (`ℚ`); Python `int` as `ℤ`; a dict key that may
be absent as `Option`; an exception-raising call as `Except`/`Option`.

Python string primitives (`strip`, `replace`, `in`, `startswith`) are
modelled by structurally recursive functions over `List Char` so that every
definition is executable by the kernel.
-/

/-- Python `str.strip()`: drop whitespace from both ends.  (Lean's
`Char.isWhitespace` covers space, tab, CR, LF — the whitespace actually
occurring in yt-dlp percent strings.) -/
def pyStrip (s : String) : String :=
  ⟨((s.data.dropWhile Char.isWhitespace).reverse.dropWhile Char.isWhitespace).reverse⟩

/-- Python `c in s` for a single character. -/
def pyContainsChar (s : String) (c : Char) : Bool :=
  s.data.any (fun x => x = c)

/-- Python `s.replace(c, '')` for a single-character pattern: delete every
occurrence of `c`. -/
def pyRemoveAll (s : String) (c : Char) : String :=
  ⟨s.data.filter (fun x => x ≠ c)⟩

/-- Python `s.startswith(p)`. -/
def pyStartsWith (s p : String) : Bool :=
  p.data.isPrefixOf s.data

/-- The two phases appearing in progress payloads (`'phase': 'download'` /
`'transcribe'` in `src/app.py`). -/
inductive Phase
  | download
  | transcribe
deriving DecidableEq, Repr

/-- One `progress` payload: `{'message', 'detail', 'percentage', 'phase'}`. -/
structure Event where
  message : String
  detail : String
  percentage : ℚ
  phase : Phase
deriving DecidableEq, Repr

/-- A yt-dlp progress dict `d` as consumed by `ProgressHook.__call__`
(lines 52-84): `d['status']` (a string), the optional `total_bytes` key
(`none` models an absent key — or a present `None` value, which the
condition `'total_bytes' in d and d['total_bytes']` treats the same way —
while `some 0` models a present falsy integer), `downloaded_bytes`, and the
optional `_percent_str` key. -/
structure Notif where
  status : String
  total_bytes : Option ℤ
  downloaded_bytes : ℤ
  percent_str : Option String
deriving DecidableEq, Repr

/-- Numeric value of a run of decimal digit characters. -/
def digitsVal (l : List Char) : ℕ :=
  l.foldl (fun a c => a * 10 + (c.toNat - '0'.toNat)) 0

/-- Model of CPython `float(str)` on an already-trimmed character list:
optional sign, an integer part and/or a fractional part (at least one digit
overall), and an optional exponent.  `inf`/`nan`/underscore forms are not
modelled; no claim depends on them. -/
def pyFloatCore (l : List Char) : Option ℚ :=
  let sgn : ℚ × List Char :=
    match l with
    | '+' :: r => (1, r)
    | '-' :: r => (-1, r)
    | _ => (1, l)
  let ip := sgn.2.takeWhile Char.isDigit
  let l2 := sgn.2.drop ip.length
  let fp : List Char × List Char :=
    match l2 with
    | '.' :: r => (r.takeWhile Char.isDigit, r.drop (r.takeWhile Char.isDigit).length)
    | _ => ([], l2)
  if ip.length = 0 ∧ fp.1.length = 0 then none
  else
    let mant : ℚ := (digitsVal ip : ℚ) + (digitsVal fp.1 : ℚ) / ((10 : ℚ) ^ fp.1.length)
    match fp.2 with
    | [] => some (sgn.1 * mant)
    | 'e' :: r =>
      let esgn : ℤ × List Char :=
        match r with
        | '+' :: rr => (1, rr)
        | '-' :: rr => (-1, rr)
        | _ => (1, r)
      let ed := esgn.2.takeWhile Char.isDigit
      if ed.length = 0 ∨ esgn.2.drop ed.length ≠ [] then none
      else some (sgn.1 * mant * (10 : ℚ) ^ (esgn.1 * (digitsVal ed : ℤ)))
    | 'E' :: r =>
      let esgn : ℤ × List Char :=
        match r with
        | '+' :: rr => (1, rr)
        | '-' :: rr => (-1, rr)
        | _ => (1, r)
      let ed := esgn.2.takeWhile Char.isDigit
      if ed.length = 0 ∨ esgn.2.drop ed.length ≠ [] then none
      else some (sgn.1 * mant * (10 : ℚ) ^ (esgn.1 * (digitsVal ed : ℤ)))
    | _ => none

/-- Model of Python `float(s)`: `float` tolerates surrounding whitespace. -/
def pyFloat? (s : String) : Option ℚ :=
  pyFloatCore (pyStrip s).data

/-- Comma-grouping of a reversed digit string (helper for `fmtComma`). -/
def commaRev : List Char → List Char
  | a :: b :: c :: d :: rest => a :: b :: c :: ',' :: commaRev (d :: rest)
  | l => l

/-- Model of Python format spec `{n:,}` on an integer. -/
def fmtComma (n : ℤ) : String :=
  (if n < 0 then "-" else "") ++ ⟨(commaRev (toString n.natAbs).data.reverse).reverse⟩

/-- Round half to even, as Python `format(x, '.0f')` does on exact values. -/
def roundHalfEven (q : ℚ) : ℤ :=
  let f := ⌊q⌋
  let r := q - f
  if r < 1/2 then f
  else if 1/2 < r then f + 1
  else if f % 2 = 0 then f else f + 1

/-- Model of Python format spec `.0f` (on exact rationals; Python applies
it to binary floats, an immaterial difference for the claims here). -/
def fmt0 (q : ℚ) : String := toString (roundHalfEven q)

/-- Model of Python format spec `.1f`. -/
def fmt1 (q : ℚ) : String :=
  let m := roundHalfEven (q * 10)
  (if m < 0 then "-" else "") ++ toString (m.natAbs / 10) ++ "." ++ toString (m.natAbs % 10)

/-- Two-digit zero padding (helper for `fmt2`). -/
def pad2 (n : ℕ) : String :=
  if n < 10 then "0" ++ toString n else toString n

/-- Model of Python format spec `.2f`. -/
def fmt2 (q : ℚ) : String :=
  let m := roundHalfEven (q * 100)
  (if m < 0 then "-" else "") ++ toString (m.natAbs / 100) ++ "." ++ pad2 (m.natAbs % 100)

/-- The event emitted by the byte-ratio branch of `ProgressHook.__call__`
(lines 55-62): percentage is `downloaded_bytes / total_bytes * 100`. -/
def byteEvent (d T : ℤ) : Event :=
  { message := "Downloading audio..."
    detail := "Downloaded " ++ fmtComma d ++ " of " ++ fmtComma T ++ " bytes"
    percentage := (d : ℚ) / (T : ℚ) * 100
    phase := Phase.download }

/-- The `elif '_percent_str' in d` branch of `ProgressHook.__call__`
(lines 63-77): strip the string, require a `%`, strip `%` signs and parse;
a parse failure is swallowed by `except: pass`.  Returns the new
`download_progress` state and the emitted events. -/
def percentStrBranch (st : ℚ) (d : Notif) : ℚ × List Event :=
  match d.percent_str with
  | none => (st, [])
  | some s =>
    let ps := pyStrip s
    if pyContainsChar ps '%' then
      match pyFloat? (pyRemoveAll ps '%') with
      | some p =>
        (p, [{ message := "Downloading audio..."
               detail := "Progress: " ++ ps
               percentage := p
               phase := Phase.download }])
      | none => (st, [])
    else (st, [])

/-- The event emitted on a `finished` status (lines 78-84). -/
def finishedEvent : Event :=
  { message := "Download complete!"
    detail := "Preparing for transcription..."
    percentage := 100
    phase := Phase.download }

/-- `ProgressHook.__call__` (lines 52-84): given the current
`download_progress` state and one notification dict, return the new state
and the events emitted.  The byte-ratio branch requires `total_bytes` to be
present AND truthy (nonzero); otherwise control falls to
`percentStrBranch`.  A `finished` status emits the fixed 100% event without
touching the state; any other status does nothing. -/
def progressHook_call (st : ℚ) (d : Notif) : ℚ × List Event :=
  if d.status = "downloading" then
    match d.total_bytes with
    | some T =>
      if T ≠ 0 then
        ((d.downloaded_bytes : ℚ) / (T : ℚ) * 100, [byteEvent d.downloaded_bytes T])
      else percentStrBranch st d
    | none => percentStrBranch st d
  else if d.status = "finished" then (st, [finishedEvent])
  else (st, [])

/-- Run the hook over a whole callback sequence, threading
`download_progress` (initialised to `0` in `ProgressHook.__init__`) and
concatenating the emitted events. -/
def runHook : ℚ → List Notif → ℚ × List Event
  | st, [] => (st, [])
  | st, d :: rest =>
    let step := progressHook_call st d
    let tail := runHook step.1 rest
    (tail.1, step.2 ++ tail.2)

/-- A character of the regex class `[a-zA-Z0-9_-]`. -/
def isVidChar (c : Char) : Bool :=
  c.isAlpha || c.isDigit || c = '_' || c = '-'

/-- The capture group `([a-zA-Z0-9_-]{11})`: exactly eleven class
characters starting here. -/
def idTail? (l : List Char) : Option (List Char) :=
  if (l.take 11).length = 11 ∧ (l.take 11).all isVidChar then some (l.take 11)
  else none

/-- One attempt of the regex `(?:v=|\/)([a-zA-Z0-9_-]{11})` at a fixed
start position: the alternation accepts `v=` or `/`, then the group. -/
def matchAt : List Char → Option (List Char)
  | 'v' :: '=' :: rest => idTail? rest
  | '/' :: rest => idTail? rest
  | _ => none

/-- `re.search` semantics: try each start position left to right, return
the first successful group. -/
def searchId : List Char → Option (List Char)
  | [] => none
  | c :: rest =>
    match matchAt (c :: rest) with
    | some t => some t
    | none => searchId rest

/-- `extract_video_id` (lines 32-35): `re.search(r'(?:v=|\/)([a-zA-Z0-9_-]{11})', url)`,
returning the captured group of the first match, or `None`. -/
def extract_video_id (url : String) : Option String :=
  (searchId url.data).map (fun l => ⟨l⟩)

/-- One recognition segment as consumed by the orchestrator: the loop at
lines 179-188 reads only `segment.text` (the timing data faster-whisper
attaches is never accessed). -/
structure Segment where
  text : String
deriving DecidableEq, Repr

/-- Outcome of the speech-recognition step (lines 150-204): the `import`
may fail (`ImportError`), the model-load or transcribe call may raise, or
recognition succeeds with a detected language, a confidence and the ordered
segment sequence. -/
inductive WhisperRes
  | importError
  | loadError (msg : String)
  | transcribeError (msg : String)
  | ok (language : String) (confidence : ℚ) (segments : List Segment)
deriving DecidableEq, Repr

/-- One concrete run's external world, consumed where `src/app.py` calls
out: `disk` is what `shutil.disk_usage('/')` returns (`none` models the
`except` path of `get_disk_usage`, otherwise `(total, used, free)` in
bytes); `notifs` are the progress callbacks yt-dlp delivers; `dlError` a
message if `ydl.download` raises; `listing` is `os.listdir(temp_dir)`;
`fileSize` is `os.path.getsize` of the found file; `whisper` the
recognition outcome. -/
structure Env where
  disk : Option (ℤ × ℤ × ℤ)
  notifs : List Notif
  dlError : Option String
  listing : List String
  fileSize : ℤ
  whisper : WhisperRes

/-- `get_disk_usage` (lines 37-45): convert bytes to MB, or `(None, None)`
on exception. -/
def get_disk_usage (env : Env) : Option ℚ × Option ℚ :=
  match env.disk with
  | some (total, _used, free) =>
    (some ((free : ℚ) / (1024 * 1024)), some ((total : ℚ) / (1024 * 1024)))
  | none => (none, none)

/-- The initial event of the orchestrator (lines 91-96). -/
def initDownloadEvent : Event :=
  { message := "Initializing download..."
    detail := "Setting up yt-dlp"
    percentage := 0
    phase := Phase.download }

/-- The message of the exception raised at line 101. -/
def insufficientDiskMsg (q : ℚ) : String :=
  "Insufficient disk space: " ++ fmt0 q ++ "MB available"

/-- Lines 99-100: `free_mb, total_mb = get_disk_usage()` followed by
`if free_mb and free_mb < 100:`.  Python truthiness makes the guard pass
exactly when the reported value is present, nonzero and below 100; this
helper returns the exception message in that case. -/
def diskBlockMsg (env : Env) : Option String :=
  match (get_disk_usage env).1 with
  | some q => if q ≠ 0 ∧ q < 100 then some (insufficientDiskMsg q) else none
  | none => none

/-- The download-complete event at lines 134-139 (file size in MB). -/
def dlCompleteEvent (mb : ℚ) : Event :=
  { message := "Download complete!"
    detail := "Audio file: " ++ fmt1 mb ++ "MB - preparing for transcription"
    percentage := 100
    phase := Phase.download }

/-- The transcription-phase start event at lines 142-147. -/
def startTranscribeEvent : Event :=
  { message := "Starting transcription..."
    detail := "Loading Whisper model"
    percentage := 0
    phase := Phase.transcribe }

/-- The model-loading event at lines 153-158. -/
def loadModelEvent : Event :=
  { message := "Loading Whisper model..."
    detail := "Initializing base model"
    percentage := 10
    phase := Phase.transcribe }

/-- The transcribing event at lines 162-167. -/
def transcribingEvent : Event :=
  { message := "Transcribing audio..."
    detail := "Processing speech recognition"
    percentage := 30
    phase := Phase.transcribe }

/-- The language-detection event at lines 171-176. -/
def langEvent (language : String) (confidence : ℚ) : Event :=
  { message := "Processing results..."
    detail := "Detected language: " ++ language ++ " (confidence: " ++ fmt2 confidence ++ ")"
    percentage := 80
    phase := Phase.transcribe }

/-- The per-segment progress event at lines 183-188: `i` is the zero-based
loop index, `len` is `len(transcript_parts)` after the current append.
Percentage: `80 + (i * 15 / max(1, len(transcript_parts)))`. -/
def assemblingEvent (i : ℕ) (len : ℕ) : Event :=
  { message := "Assembling transcript..."
    detail := "Processing segment " ++ toString (i + 1)
    percentage := 80 + ((i : ℚ) * 15) / ((max 1 len : ℕ) : ℚ)
    phase := Phase.transcribe }

/-- The final transcription event at lines 192-197 (`n` = character count
of the assembled transcript). -/
def transcriptDoneEvent (n : ℕ) : Event :=
  { message := "Transcription complete!"
    detail := "Generated " ++ toString n ++ " characters"
    percentage := 100
    phase := Phase.transcribe }

/-- The segment loop at lines 178-188: `for i, segment in enumerate(segments)`
appends `segment.text` to `transcript_parts` and, when `i % 10 == 0`, emits
an `assemblingEvent`.  Returns the accumulated parts and the emitted
events; `i` and `parts` carry the loop state. -/
def segmentLoop : ℕ → List String → List Segment → List String × List Event
  | _, parts, [] => (parts, [])
  | i, parts, seg :: rest =>
    let parts2 := parts ++ [seg.text]
    let tail := segmentLoop (i + 1) parts2 rest
    (tail.1, (if i % 10 = 0 then [assemblingEvent i parts2.length] else []) ++ tail.2)

/-- The result of one orchestrator invocation: the progress events emitted
(in order), whether `ydl.download` was invoked, and the returned transcript
or the message of the exception that escaped. -/
structure OrchResult where
  events : List Event
  downloadCalled : Bool
  result : Except String String
deriving Repr

/-- The part of `download_and_transcribe_with_progress` inside the
`tempfile.TemporaryDirectory()` block (lines 106-207).  Every exception
raised inside the outer `try` is re-raised as `"Processing failed: " ++ e`
(line 207); an exception during transcription is first wrapped as
`"Transcription failed: " ++ e` (line 204), except an `ImportError`, which
gets its own message (line 202). -/
def downloadAndTranscribeBody (env : Env) (ev0 : List Event) : OrchResult :=
  let evs1 := ev0 ++ (runHook 0 env.notifs).2
  match env.dlError with
  | some m => { events := evs1, downloadCalled := true, result := .error ("Processing failed: " ++ m) }
  | none =>
    match env.listing.filter (fun f => pyStartsWith f "audio.") with
    | [] =>
      { events := evs1, downloadCalled := true
        result := .error "Processing failed: No audio file found after download" }
    | _ :: _ =>
      let file_size_mb : ℚ := (env.fileSize : ℚ) / (1024 * 1024)
      let evs2 := evs1 ++ [dlCompleteEvent file_size_mb, startTranscribeEvent]
      match env.whisper with
      | .importError =>
        { events := evs2, downloadCalled := true
          result := .error "Processing failed: faster-whisper not installed. Please install it first." }
      | .loadError m =>
        { events := evs2 ++ [loadModelEvent], downloadCalled := true
          result := .error ("Processing failed: Transcription failed: " ++ m) }
      | .transcribeError m =>
        { events := evs2 ++ [loadModelEvent, transcribingEvent], downloadCalled := true
          result := .error ("Processing failed: Transcription failed: " ++ m) }
      | .ok language confidence segments =>
        let loopRes := segmentLoop 0 [] segments
        let transcript := pyStrip (String.intercalate " " loopRes.1)
        { events := evs2 ++ [loadModelEvent, transcribingEvent, langEvent language confidence]
            ++ loopRes.2 ++ [transcriptDoneEvent transcript.length]
          downloadCalled := true
          result := .ok transcript }

/-- `download_and_transcribe_with_progress` (lines 86-207): emit the
initial event, check disk space (the exception at line 101 is raised
before the `with`/`try` blocks, so it propagates unwrapped), then run the
body.  The `youtube_url` argument is only handed to the external
downloader, whose behaviour the `Env` already captures. -/
def download_and_transcribe_with_progress (youtube_url : String) (env : Env) : OrchResult :=
  let _ := youtube_url
  match diskBlockMsg env with
  | some m => { events := [initDownloadEvent], downloadCalled := false, result := .error m }
  | none => downloadAndTranscribeBody env [initDownloadEvent]

/-- An outbound socket event of one request: a `progress` payload, the
`transcription_complete` payload, or the `transcription_error` payload. -/
inductive Emission
  | progress (e : Event)
  | complete (transcript : String)
  | error (msg : String)
deriving DecidableEq, Repr

/-- `True` exactly for the two terminal payloads. -/
def isTerminalB : Emission → Bool
  | .progress _ => false
  | .complete _ => true
  | .error _ => true

/-- `True` exactly for `transcription_complete`. -/
def isCompleteB : Emission → Bool
  | .complete _ => true
  | _ => false

/-- `extraction_task` (lines 227-237): run the orchestrator; on a normal
return emit `transcription_error 'No transcript generated'` if the
transcript is falsy (empty) and `transcription_complete` otherwise; on an
exception emit `transcription_error str(e)`.  The returned list is the
request's whole outbound event sequence, progress events included. -/
def extraction_task (url : String) (env : Env) : List Emission :=
  let r := download_and_transcribe_with_progress url env
  match r.result with
  | .ok transcript =>
    if transcript = "" then r.events.map .progress ++ [.error "No transcript generated"]
    else r.events.map .progress ++ [.complete transcript]
  | .error e => r.events.map .progress ++ [.error e]

/-- `handle_extraction` (lines 213-242): read `data.get('url')`; a missing
or empty (falsy) URL or a failed validation is reported synchronously with
a single error event and no background thread; otherwise the background
task runs.  Returns the request's event sequence and whether background
work was spawned. -/
def handle_extraction (url : Option String) (env : Env) : List Emission × Bool :=
  match url with
  | none => ([.error "No URL provided"], false)
  | some u =>
    if u = "" then ([.error "No URL provided"], false)
    else
      match extract_video_id u with
      | none => ([.error "Invalid YouTube URL"], false)
      | some _ => (extraction_task u env, true)

/-- A concrete successful run whose recognition segments are
`["Hello", " world"]` (disk usage unavailable, no download callbacks, one
audio file of 1MB). -/
def envHello : Env :=
  { disk := none, notifs := [], dlError := none, listing := ["audio.m4a"]
    fileSize := 1048576, whisper := .ok "en" 1 [⟨"Hello"⟩, ⟨" world"⟩] }

/-- A concrete run in which `shutil.disk_usage` reports 0 bytes free (a
completely full disk): `free_mb = 0.0`, which is falsy in Python. -/
def envZero : Env :=
  { disk := some (1000000000, 1000000000, 0), notifs := [], dlError := none
    listing := ["audio.m4a"], fileSize := 1048576, whisper := .ok "en" 1 [⟨"hi"⟩] }

/-- A concrete successful run whose recognition produced zero segments. -/
def envEmptySeg : Env :=
  { disk := none, notifs := [], dlError := none, listing := ["audio.m4a"]
    fileSize := 4096, whisper := .ok "en" 1 [] }

lemma idTail?_valid {l t : List Char} (h : idTail? l = some t) :
    t.length = 11 ∧ t.all isVidChar = true := by
  unfold idTail? at h
  split at h
  · cases h
    next hc => exact hc
  · exact Option.noConfusion h

lemma matchAt_valid {l t : List Char} (h : matchAt l = some t) :
    t.length = 11 ∧ t.all isVidChar = true := by
  unfold matchAt at h
  split at h
  · exact idTail?_valid h
  · exact idTail?_valid h
  · exact Option.noConfusion h

lemma searchId_valid {l t : List Char} (h : searchId l = some t) :
    t.length = 11 ∧ t.all isVidChar = true := by
  induction l with
  | nil => simp [searchId] at h
  | cons c rest ih =>
    simp only [searchId] at h
    split at h
    · next hm => cases h; exact matchAt_valid hm
    · exact ih h

lemma searchId_none_iff {l : List Char} :
    searchId l = none ↔ ∀ i, i ≤ l.length → matchAt (l.drop i) = none := by
  induction l with
  | nil =>
    simp only [searchId, true_iff]
    intro i _
    rw [List.drop_nil]
    rfl
  | cons c rest ih =>
    constructor
    · intro h i hi
      have hm0 : matchAt (c :: rest) = none := by
        cases hm : matchAt (c :: rest) with
        | some t => simp [searchId, hm] at h
        | none => rfl
      have hrest : searchId rest = none := by
        simpa [searchId, hm0] using h
      cases i with
      | zero => simpa using hm0
      | succ j =>
        rw [List.drop_succ_cons]
        exact ih.mp hrest j (Nat.le_of_succ_le_succ hi)
    · intro h
      have hm0 : matchAt (c :: rest) = none := by simpa using h 0 (Nat.zero_le _)
      simp only [searchId, hm0]
      exact ih.mpr fun j hj => by
        simpa [List.drop_succ_cons] using h (j + 1) (Nat.succ_le_succ hj)

lemma searchId_first {l : List Char} {i : ℕ} {t : List Char}
    (hm : matchAt (l.drop i) = some t)
    (hfirst : ∀ j, j < i → matchAt (l.drop j) = none) :
    searchId l = some t := by
  induction l generalizing i with
  | nil => simp [List.drop_nil, matchAt] at hm
  | cons c rest ih =>
    cases i with
    | zero =>
      simp only [List.drop_zero] at hm
      simp [searchId, hm]
    | succ j =>
      have h0 : matchAt (c :: rest) = none := by
        simpa using hfirst 0 (Nat.succ_pos j)
      simp only [searchId, h0]
      exact ih (by simpa [List.drop_succ_cons] using hm)
        fun k hk => by simpa [List.drop_succ_cons] using hfirst (k + 1) (Nat.succ_lt_succ hk)

/-- C3: for every input containing `v=` immediately followed by an
11-character token over `[a-zA-Z0-9_-]`, the validator succeeds and returns
an 11-character token of that class (conjunct 1); among several candidate
tokens — after `v=` or `/` — the one at the first matching position wins,
so when the `v=` token is the first match it is returned (conjunct 2); and
for every string with no 11-character token immediately after a `v=` or a
`/`, the validator signals invalid (conjunct 3). -/
theorem extract_video_id_spec :
    (∀ a t b : List Char, t.length = 11 → t.all isVidChar = true →
      ∃ u : String, extract_video_id ⟨a ++ 'v' :: '=' :: (t ++ b)⟩ = some u ∧
        u.length = 11 ∧ u.data.all isVidChar = true) ∧
    (∀ (s : String) (i : ℕ) (t : List Char), matchAt (s.data.drop i) = some t →
      (∀ j, j < i → matchAt (s.data.drop j) = none) →
      extract_video_id s = some ⟨t⟩) ∧
    (∀ s : String, (∀ i, i ≤ s.data.length → matchAt (s.data.drop i) = none) →
      extract_video_id s = none) := by
  refine ⟨?_, ?_, ?_⟩
  · intro a t b ht hall
    have htake : (t ++ b).take 11 = t := List.take_left' ht
    have hm : matchAt ((a ++ 'v' :: '=' :: (t ++ b)).drop a.length) = some t := by
      rw [List.drop_left]
      show idTail? (t ++ b) = some t
      unfold idTail?
      rw [htake, if_pos ⟨ht, hall⟩]
    cases hs : searchId (a ++ 'v' :: '=' :: (t ++ b)) with
    | none =>
      exfalso
      have := searchId_none_iff.mp hs a.length (by simp [List.length_append])
      rw [this] at hm
      exact Option.noConfusion hm
    | some u =>
      refine ⟨⟨u⟩, ?_, (searchId_valid hs).1, (searchId_valid hs).2⟩
      show (searchId (a ++ 'v' :: '=' :: (t ++ b))).map _ = _
      rw [hs]
      rfl
  · intro s i t hm hfirst
    show (searchId s.data).map _ = _
    rw [searchId_first hm hfirst]
    rfl
  · intro s h
    show (searchId s.data).map _ = _
    rw [searchId_none_iff.mpr h]
    rfl

theorem extract_video_id_spec_witness :
    (∃ u : String,
      extract_video_id ⟨[] ++ 'v' :: '=' :: (['d', 'Q', 'w', '4', 'w', '9', 'W', 'g', 'X', 'c', 'Q'] ++ [])⟩ = some u ∧
        u.length = 11 ∧ u.data.all isVidChar = true) ∧
    extract_video_id "nope" = none :=
  ⟨extract_video_id_spec.1 [] ['d', 'Q', 'w', '4', 'w', '9', 'W', 'g', 'X', 'c', 'Q'] []
      (by decide) (by decide),
    extract_video_id_spec.2.2 "nope" (by decide)⟩

lemma runHook_append (s : ℚ) (l₁ l₂ : List Notif) :
    runHook s (l₁ ++ l₂) =
      ((runHook (runHook s l₁).1 l₂).1, (runHook s l₁).2 ++ (runHook (runHook s l₁).1 l₂).2) := by
  induction l₁ generalizing s with
  | nil => simp [runHook]
  | cons d rest ih => simp [runHook, ih, List.append_assoc]

lemma runHook_uniform {T : ℤ} (hT : T ≠ 0) (body : List Notif) :
    ∀ s : ℚ, (∀ n ∈ body, n.status = "downloading" ∧ n.total_bytes = some T) →
      (runHook s body).2 = body.map (fun n => byteEvent n.downloaded_bytes T) := by
  induction body with
  | nil => intro s _; simp [runHook]
  | cons d rest ih =>
    intro s hall
    obtain ⟨hst, htot⟩ := hall d (List.mem_cons_self d rest)
    simp [runHook, progressHook_call, hst, htot, hT,
      ih _ fun n hn => hall n (List.mem_cons_of_mem d hn)]

/-- C4 (amended): a download notification sequence with non-decreasing
byte counts, all bounded by a fixed positive total, followed by a
`finished` notification, makes the relay emit a non-decreasing
download-percentage sequence ending at exactly 100.  (The bound
`downloaded_bytes ≤ total` is the amendment: without it the byte-ratio
branch can emit more than 100 and the final 100 breaks monotonicity.) -/
theorem hook_monotone_to_100 (T : ℤ) (hT : 0 < T) (body : List Notif) (fin : Notif)
    (hbody : ∀ n ∈ body,
      n.status = "downloading" ∧ n.total_bytes = some T ∧ n.downloaded_bytes ≤ T)
    (hmono : List.Chain' (· ≤ ·) (body.map Notif.downloaded_bytes))
    (hfin : fin.status = "finished") :
    List.Chain' (· ≤ ·) ((runHook 0 (body ++ [fin])).2.map Event.percentage) ∧
      ((runHook 0 (body ++ [fin])).2.map Event.percentage).getLast? = some 100 := by
  have hT' : T ≠ 0 := by omega
  have hTQ : (0 : ℚ) < (T : ℚ) := by exact_mod_cast hT
  have hev : (runHook 0 (body ++ [fin])).2
      = body.map (fun n => byteEvent n.downloaded_bytes T) ++ [finishedEvent] := by
    rw [runHook_append]
    show (runHook 0 body).2 ++ (runHook (runHook 0 body).1 [fin]).2
        = body.map (fun n => byteEvent n.downloaded_bytes T) ++ [finishedEvent]
    congr 1
    · exact runHook_uniform hT' body 0 fun n hn => ⟨(hbody n hn).1, (hbody n hn).2.1⟩
    · simp [runHook, progressHook_call, hfin]
  rw [hev, List.map_append, List.map_map]
  have hpe : (Event.percentage ∘ fun n => byteEvent n.downloaded_bytes T)
      = fun n : Notif => (n.downloaded_bytes : ℚ) / (T : ℚ) * 100 := rfl
  rw [hpe]
  have hlast100 : ∀ x ∈ (body.map fun n : Notif => (n.downloaded_bytes : ℚ) / (T : ℚ) * 100).getLast?,
      ∀ y ∈ ([finishedEvent].map Event.percentage).head?, x ≤ y := by
    intro x hx y hy
    simp only [List.map_cons, List.map_nil, List.head?_cons, Option.mem_def,
      Option.some.injEq] at hy
    rw [List.getLast?_map] at hx
    simp only [Option.mem_def, Option.map_eq_some'] at hx
    obtain ⟨n, hn, hxn⟩ := hx
    have hmem : n ∈ body := List.mem_of_mem_getLast? (by simpa using hn)
    have hd : (n.downloaded_bytes : ℚ) ≤ (T : ℚ) := by exact_mod_cast (hbody n hmem).2.2
    subst hxn
    rw [← hy]
    calc (n.downloaded_bytes : ℚ) / (T : ℚ) * 100 ≤ (T : ℚ) / (T : ℚ) * 100 := by gcongr
      _ = 100 := by rw [div_self (ne_of_gt hTQ), one_mul]
  constructor
  · rw [List.chain'_append]
    refine ⟨?_, by simp, hlast100⟩
    rw [List.chain'_map]
    rw [List.chain'_map] at hmono
    refine hmono.imp ?_
    intro a b hab
    have hc : (a.downloaded_bytes : ℚ) ≤ (b.downloaded_bytes : ℚ) := by exact_mod_cast hab
    gcongr
  · rw [show ([finishedEvent].map Event.percentage) = [(100 : ℚ)] from rfl,
      List.getLast?_concat]

theorem hook_monotone_to_100_witness :
    List.Chain' (· ≤ ·)
      ((runHook 0 ([⟨"downloading", some 100, 50, none⟩] ++ [⟨"finished", none, 0, none⟩])).2.map
        Event.percentage) ∧
    ((runHook 0 ([⟨"downloading", some 100, 50, none⟩] ++ [⟨"finished", none, 0, none⟩])).2.map
        Event.percentage).getLast? = some 100 :=
  hook_monotone_to_100 100 (by decide) [⟨"downloading", some 100, 50, none⟩]
    ⟨"finished", none, 0, none⟩
    (by intro n hn; simp at hn; subst hn; exact ⟨rfl, rfl, by decide⟩)
    (by simp)
    rfl

/-- C4 (counterexample): the hypotheses of the claim as stated do not
bound the byte counts by the total.  One downloading notification with
`downloaded_bytes = 200` of `total_bytes = 100` (a non-decreasing
one-element byte sequence over a fixed positive total) followed by
`finished` makes the relay emit percentages `[200, 100]`, which is not
non-decreasing. -/
theorem hook_overshoot_counterexample :
    (runHook 0 [⟨"downloading", some 100, 200, none⟩,
        ⟨"finished", none, 0, none⟩]).2.map Event.percentage = [200, 100] ∧
    ¬ List.Chain' (· ≤ ·)
      ((runHook 0 [⟨"downloading", some 100, 200, none⟩,
          ⟨"finished", none, 0, none⟩]).2.map Event.percentage) := by
  have h : (runHook 0 [⟨"downloading", some 100, 200, none⟩,
      ⟨"finished", none, 0, none⟩]).2.map Event.percentage = [200, 100] := by
    simp [runHook, progressHook_call, byteEvent, finishedEvent]
  refine ⟨h, ?_⟩
  rw [h]
  simp [List.chain'_cons]
  norm_num

/-- C5: a `downloading` notification carrying no usable total and a
percent string that does not parse as a number produces no event and
leaves the relay state unchanged — the parse failure is swallowed
(`except: pass`), so the orchestrator cannot crash on it. -/
theorem percent_str_parse_failure_drops (st : ℚ) (n : Notif) (s : String)
    (hst : n.status = "downloading")
    (htot : n.total_bytes = none ∨ n.total_bytes = some 0)
    (hps : n.percent_str = some s)
    (hparse : pyFloat? (pyRemoveAll (pyStrip s) '%') = none) :
    progressHook_call st n = (st, []) := by
  have hbranch : percentStrBranch st n = (st, []) := by
    unfold percentStrBranch
    rw [hps]
    by_cases hc : pyContainsChar (pyStrip s) '%'
    · simp [hc, hparse]
    · simp [hc]
  cases htot with
  | inl h => simp [progressHook_call, hst, h, hbranch]
  | inr h => simp [progressHook_call, hst, h, hbranch]

theorem percent_str_parse_failure_drops_witness :
    progressHook_call 5 ⟨"downloading", none, 0, some "abc%"⟩ = (5, []) :=
  percent_str_parse_failure_drops 5 ⟨"downloading", none, 0, some "abc%"⟩ "abc%"
    rfl (Or.inl rfl) rfl (by decide)

/-- C10: a `downloading` notification whose `total_bytes` key is present
but zero (falsy) never reaches the byte-ratio division: the call is
exactly the percent-string fallback branch (which emits nothing when no
percent string is available). -/
theorem zero_total_falls_through (st : ℚ) (n : Notif)
    (hst : n.status = "downloading") (htot : n.total_bytes = some 0) :
    progressHook_call st n = percentStrBranch st n := by
  simp [progressHook_call, hst, htot]

theorem zero_total_falls_through_witness :
    progressHook_call 0 ⟨"downloading", some 0, 7, some "12%"⟩ =
      percentStrBranch 0 ⟨"downloading", some 0, 7, some "12%"⟩ :=
  zero_total_falls_through 0 ⟨"downloading", some 0, 7, some "12%"⟩ rfl rfl

lemma segmentLoop_events (segs : List Segment) :
    ∀ (i : ℕ) (parts : List String), parts.length = i →
      (segmentLoop i parts segs).2 =
        (List.range segs.length).filterMap fun k =>
          if (k + i) % 10 = 0 then some (assemblingEvent (k + i) (k + i + 1)) else none := by
  induction segs with
  | nil => intro i parts _; simp [segmentLoop]
  | cons seg rest ih =>
    intro i parts hlen
    have hlen2 : (parts ++ [seg.text]).length = i + 1 := by simp [hlen]
    simp only [segmentLoop]
    rw [ih (i + 1) _ hlen2, hlen2, List.length_cons, List.range_succ_eq_map,
      List.filterMap_cons, List.filterMap_map]
    have hfun : ((fun k => if (k + i) % 10 = 0 then
          some (assemblingEvent (k + i) (k + i + 1)) else none) ∘ Nat.succ)
        = fun k => if (k + (i + 1)) % 10 = 0 then
            some (assemblingEvent (k + (i + 1)) (k + (i + 1) + 1)) else none := by
      funext k
      simp only [Function.comp_apply, Nat.succ_eq_add_one]
      rw [show k + 1 + i = k + (i + 1) from by omega]
    rw [hfun]
    by_cases h : i % 10 = 0 <;> simp [h]

/-- C9: over the whole segment loop, a progress event is emitted exactly
at the indices `i` with `i % 10 = 0` (the 1st, 11th, 21st, ... segment),
and the percentage of the event at zero-based index `i` is
`80 + i * 15 / (i + 1)`, where `i + 1 = len(transcript_parts)` counts the
segments accumulated up to and including the current one (so the source's
`max(1, len(transcript_parts))` is exactly `i + 1`). -/
theorem segment_progress_events (segs : List Segment) :
    (segmentLoop 0 [] segs).2 =
      (List.range segs.length).filterMap fun i =>
        if i % 10 = 0 then
          some { message := "Assembling transcript..."
                 detail := "Processing segment " ++ toString (i + 1)
                 percentage := 80 + ((i : ℚ) * 15) / ((i : ℚ) + 1)
                 phase := Phase.transcribe }
        else none := by
  rw [segmentLoop_events segs 0 [] rfl]
  congr 1
  funext k
  simp only [Nat.add_zero]
  by_cases h : k % 10 = 0
  · have hm : max 1 (k + 1) = k + 1 := Nat.max_eq_right (by omega)
    simp only [h, if_true, assemblingEvent, hm, Option.some.injEq, Event.mk.injEq,
      true_and, and_true]
    push_cast
    ring
  · simp [h]

/-- C1 (counterexample): on the run `envHello`, whose recognition
segments are exactly `["Hello", " world"]`, the orchestrator's assembled
transcript is `"Hello  world"` (two spaces), not `"Hello world"` as the
claim states: `" ".join` inserts a space between `"Hello"` and
`" world"`, which already starts with one, and `.strip()` only removes
surrounding whitespace. -/
theorem transcript_hello_world_counterexample :
    (download_and_transcribe_with_progress "u" envHello).result = .ok "Hello  world" ∧
      ("Hello  world" : String) ≠ "Hello world" :=
  ⟨rfl, by decide⟩

/-- C1 (amended): for every run that reaches recognition and whose
ordered segments are `["Hello", " world"]`, the orchestrator's assembled
transcript (segment texts joined with single spaces, then surrounding
whitespace stripped) is exactly `"Hello  world"` — with two consecutive
spaces, since the second segment text begins with its own space. -/
theorem transcript_hello_double_space (url : String) (env : Env)
    (language : String) (confidence : ℚ)
    (hdisk : diskBlockMsg env = none)
    (hdl : env.dlError = none)
    (hfiles : env.listing.filter (fun f => pyStartsWith f "audio.") ≠ [])
    (hw : env.whisper = .ok language confidence [⟨"Hello"⟩, ⟨" world"⟩]) :
    (download_and_transcribe_with_progress url env).result = .ok "Hello  world" := by
  unfold download_and_transcribe_with_progress
  rw [hdisk]
  unfold downloadAndTranscribeBody
  rw [hdl]
  obtain ⟨f, fs, hEq⟩ := List.exists_cons_of_ne_nil hfiles
  rw [hEq, hw]
  rfl

theorem transcript_hello_double_space_witness :
    (download_and_transcribe_with_progress "u" envHello).result = .ok "Hello  world" :=
  transcript_hello_double_space "u" envHello "en" 1 rfl rfl (by decide) rfl

/-- C2 (code-bug evidence): on the run `envZero` the reported free space
is `0.0` MB — below the 100MB threshold — yet the orchestrator does not
fail with the insufficient-disk-space error: it invokes the downloader and
completes.  The guard `if free_mb and free_mb < 100:` treats the falsy
float `0.0` like the `None` sentinel of `get_disk_usage`, skipping the
check exactly when the disk is completely full, contradicting the
adjacent comment `# Less than 100MB free`. -/
theorem disk_zero_free_proceeds :
    (get_disk_usage envZero).1 = some 0 ∧
      (download_and_transcribe_with_progress "u" envZero).downloadCalled = true ∧
      (download_and_transcribe_with_progress "u" envZero).result = Except.ok "hi" := by
  refine ⟨?_, ?_, ?_⟩
  · show some ((0 : ℚ) / (1024 * 1024)) = some 0
    norm_num
  · simp [download_and_transcribe_with_progress, diskBlockMsg, get_disk_usage, envZero,
      downloadAndTranscribeBody, runHook, pyStartsWith]
  · simp [download_and_transcribe_with_progress, diskBlockMsg, get_disk_usage, envZero,
      downloadAndTranscribeBody, runHook, pyStartsWith, segmentLoop]
    rfl

/-- C6: a start-extraction message whose URL is missing (or empty, which
Python's `if not url:` treats the same) or fails validation is answered
with exactly one synchronous error event, and no background work is
spawned. -/
theorem invalid_url_sync_error (url : Option String) (env : Env)
    (h : ∀ u, url = some u → extract_video_id u = none) :
    ∃ m, handle_extraction url env = ([Emission.error m], false) := by
  cases url with
  | none => exact ⟨"No URL provided", rfl⟩
  | some u =>
    by_cases hu : u = ""
    · subst hu
      exact ⟨"No URL provided", rfl⟩
    · refine ⟨"Invalid YouTube URL", ?_⟩
      simp [handle_extraction, hu, h u rfl]

theorem invalid_url_sync_error_witness :
    ∃ m, handle_extraction (some "nope") envHello = ([Emission.error m], false) :=
  invalid_url_sync_error (some "nope") envHello (by intro u hu; cases hu; decide)

/-- C7: a run that reaches recognition and yields zero segments assembles
the empty transcript, so the background task's terminal event is
`transcription_error "No transcript generated"` and no completion event is
ever emitted for the request. -/
theorem empty_segments_no_transcript (url : String) (env : Env)
    (language : String) (confidence : ℚ)
    (hdisk : diskBlockMsg env = none)
    (hdl : env.dlError = none)
    (hfiles : env.listing.filter (fun f => pyStartsWith f "audio.") ≠ [])
    (hw : env.whisper = .ok language confidence []) :
    (extraction_task url env).filter isCompleteB = [] ∧
      (extraction_task url env).getLast? = some (.error "No transcript generated") := by
  have hr : (download_and_transcribe_with_progress url env).result = .ok "" := by
    unfold download_and_transcribe_with_progress
    rw [hdisk]
    unfold downloadAndTranscribeBody
    rw [hdl]
    obtain ⟨f, fs, hEq⟩ := List.exists_cons_of_ne_nil hfiles
    rw [hEq, hw]
    rfl
  have htask : extraction_task url env =
      (download_and_transcribe_with_progress url env).events.map .progress
        ++ [.error "No transcript generated"] := by
    simp only [extraction_task]
    rw [hr]
    rfl
  rw [htask]
  constructor
  · rw [List.filter_eq_nil_iff]
    intro e he
    rcases List.mem_append.mp he with h1 | h2
    · obtain ⟨x, _, rfl⟩ := List.mem_map.mp h1
      simp [isCompleteB]
    · simp at h2
      subst h2
      simp [isCompleteB]
  · exact List.getLast?_concat _

theorem empty_segments_no_transcript_witness :
    (extraction_task "u" envEmptySeg).filter isCompleteB = [] ∧
      (extraction_task "u" envEmptySeg).getLast? = some (.error "No transcript generated") :=
  empty_segments_no_transcript "u" envEmptySeg "en" 1 rfl rfl (by decide) rfl

/-- C8: whatever the run does, the background task's event sequence is
some progress prefix followed by exactly one terminal event
(`transcription_complete` or `transcription_error`), which ends it: the
prefix contains no terminal event and the last element is one. -/
theorem terminal_event_unique (url : String) (env : Env) :
    ∃ evs t, extraction_task url env = evs ++ [t] ∧
      evs.filter isTerminalB = [] ∧ isTerminalB t = true := by
  have hprog : ∀ l : List Event, (l.map Emission.progress).filter isTerminalB = [] := by
    intro l
    rw [List.filter_eq_nil_iff]
    intro e he
    obtain ⟨x, _, rfl⟩ := List.mem_map.mp he
    simp [isTerminalB]
  cases hres : (download_and_transcribe_with_progress url env).result with
  | ok transcript =>
    by_cases ht : transcript = ""
    · subst ht
      refine ⟨(download_and_transcribe_with_progress url env).events.map .progress,
        .error "No transcript generated", ?_, hprog _, rfl⟩
      simp only [extraction_task]
      rw [hres]
      rfl
    · refine ⟨(download_and_transcribe_with_progress url env).events.map .progress,
        .complete transcript, ?_, hprog _, rfl⟩
      simp only [extraction_task]
      rw [hres]
      exact if_neg ht
  | error e =>
    refine ⟨(download_and_transcribe_with_progress url env).events.map .progress,
      .error e, ?_, hprog _, rfl⟩
    simp only [extraction_task]
    rw [hres]
